import Mathlib

/-!
# SocialWise speech streaming gateway — verification of spec claims

Shallow embedding of the speech gateway code in `backend/services/speech_service.py`,
`backend/services/voice_service.py` and `backend/app/services/speech_service.py`,
together with proofs settling the frozen claims about it.

Bytes are modelled as `Nat` (each value `< 256` in the real program; the proofs never
depend on the bound unless stated). Byte buffers are `List Nat`. Parsed JSON server
messages are modelled as structures holding exactly the fields the code reads.
-/

namespace SocialWise

/-- One audio frame of the streaming send path: a payload slice and the lifecycle
status the Python code attaches to it (`0` = START, `1` = CONTINUE, `2` = END).
The frame's sequence index is its position in the produced list. -/
structure AudioFrame where
  payload : List Nat
  status : Nat
deriving DecidableEq, Repr

/-- Fuel-indexed worker for the chunking loop of
`SpeechService.stream_speech_to_text` (speech_service.py lines 154–179):

    for i in range(0, len(audio_data), chunk_size):
        chunk = audio_data[i:i + chunk_size]
        status = 0 if i == 0 else 1
        if i + chunk_size >= len(audio_data):
            status = 2

`first` records whether the current position is `i = 0`; `i + chunk_size >= len`
is equivalent to the remaining buffer having length at most `cs`. Fuel
`buf.length` is always sufficient when `0 < cs`. -/
def chunkGo (cs : Nat) : Nat → Bool → List Nat → List AudioFrame
  | 0, _, _ => []
  | fuel + 1, first, buf =>
    if buf = [] then []
    else if buf.length ≤ cs then [⟨buf, 2⟩]
    else ⟨buf.take cs, if first then 0 else 1⟩ :: chunkGo cs fuel false (buf.drop cs)

/-- The frame sequence produced by the send loop of `stream_speech_to_text`
for a given chunk size (the code fixes `chunk_size = 1280`). -/
def chunkFrames (cs : Nat) (buffer : List Nat) : List AudioFrame :=
  chunkGo cs buffer.length true buffer

lemma chunkGo_join (cs : Nat) (hcs : 0 < cs) :
    ∀ (fuel : Nat) (first : Bool) (buf : List Nat), buf.length ≤ fuel →
      ((chunkGo cs fuel first buf).map AudioFrame.payload).flatten = buf := by
  intro fuel
  induction fuel with
  | zero =>
    intro first buf h
    have : buf = [] := List.length_eq_zero.mp (Nat.le_zero.mp h)
    subst this; simp [chunkGo]
  | succ n ih =>
    intro first buf h
    by_cases hb : buf = []
    · subst hb; simp [chunkGo]
    · by_cases hle : buf.length ≤ cs
      · simp [chunkGo, hb, hle]
      · have hdrop : (buf.drop cs).length ≤ n := by
          have := List.length_drop cs buf
          omega
        simp only [chunkGo, if_neg hb, if_neg hle, List.map_cons, List.flatten_cons]
        rw [ih false (buf.drop cs) hdrop]
        exact List.take_append_drop cs buf

lemma chunkGo_payload_le (cs : Nat) :
    ∀ (fuel : Nat) (first : Bool) (buf : List Nat),
      ∀ f ∈ (chunkGo cs fuel first buf), f.payload.length ≤ cs := by
  intro fuel
  induction fuel with
  | zero => intro first buf f hf; simp [chunkGo] at hf
  | succ n ih =>
    intro first buf f hf
    by_cases hb : buf = []
    · subst hb; simp [chunkGo] at hf
    · by_cases hle : buf.length ≤ cs
      · simp [chunkGo, hb, hle] at hf
        subst hf; simpa using hle
      · simp only [chunkGo, if_neg hb, if_neg hle, List.mem_cons] at hf
        rcases hf with hf | hf
        · subst hf; simp [List.length_take]
        · exact ih false (buf.drop cs) f hf

/-- With `first = false` no frame ever carries START. -/
lemma chunkGo_no_start (cs : Nat) :
    ∀ (fuel : Nat) (buf : List Nat),
      (chunkGo cs fuel false buf).countP (fun f => f.status == 0) = 0 := by
  intro fuel
  induction fuel with
  | zero => intro buf; simp [chunkGo]
  | succ n ih =>
    intro buf
    by_cases hb : buf = []
    · subst hb; simp [chunkGo]
    · by_cases hle : buf.length ≤ cs
      · simp [chunkGo, hb, hle, List.countP_cons]
      · simp only [chunkGo, if_neg hb, if_neg hle, List.countP_cons]
        simp [ih]

lemma chunkGo_count_start (cs : Nat) (hcs : 0 < cs) :
    ∀ (fuel : Nat) (buf : List Nat), buf.length ≤ fuel → cs < buf.length →
      (chunkGo cs fuel true buf).countP (fun f => f.status == 0) = 1 := by
  intro fuel buf h hlt
  cases fuel with
  | zero => omega
  | succ n =>
    have hb : buf ≠ [] := by
      intro hb; subst hb; simp at hlt
    have hle : ¬ buf.length ≤ cs := by omega
    simp only [chunkGo, if_neg hb, if_neg hle, List.countP_cons]
    simp [chunkGo_no_start]

lemma chunkGo_count_end (cs : Nat) (hcs : 0 < cs) :
    ∀ (fuel : Nat) (first : Bool) (buf : List Nat),
      buf.length ≤ fuel → 0 < buf.length →
      (chunkGo cs fuel first buf).countP (fun f => f.status == 2) = 1 := by
  intro fuel
  induction fuel with
  | zero => intro first buf h hpos; omega
  | succ n ih =>
    intro first buf h hpos
    have hb : buf ≠ [] := by
      intro hb; subst hb; simp at hpos
    by_cases hle : buf.length ≤ cs
    · simp [chunkGo, hb, hle]
    · have hdrop : (buf.drop cs).length ≤ n := by
        have := List.length_drop cs buf
        omega
      have hdpos : 0 < (buf.drop cs).length := by
        have := List.length_drop cs buf
        omega
      simp only [chunkGo, if_neg hb, if_neg hle, List.countP_cons]
      rw [ih false (buf.drop cs) hdrop hdpos]
      rcases first with _ | _ <;> simp

/-- A parsed server message as seen by the receive side of
`stream_speech_to_text` (speech_service.py lines 183–195). `result` is `some words`
exactly when the keys `data`, `data.result` and `data.result.ws` are all present,
with `words` the word strings `cw["w"]` in nesting order; `status` is `data.status`
when present. The code of this path reads neither `code`, `message` nor `status`. -/
structure AsrStreamResp where
  code : Nat
  message : String
  result : Option (List String)
  status : Option Nat
deriving DecidableEq, Repr

/-- One receive attempt inside the streaming loop: `timeout` models the 1-second
`asyncio.wait_for` timing out (caught, `continue`), `failed e` models any other
exception while receiving or JSON-decoding (propagates to the outer `except`,
which yields `{"error": str(e)}` and ends the generator), and `msg r` a
received, parsed message. -/
inductive RSlot where
  | timeout
  | failed (e : String)
  | msg (r : AsrStreamResp)
deriving DecidableEq, Repr

/-- An item yielded by the `stream_speech_to_text` generator: either a partial
result `{"text": t, "final": final}` or the `{"error": msg}` of the outer
exception handler. -/
inductive StreamUpdate where
  | text (t : String) (final : Bool)
  | error (msg : String)
deriving DecidableEq, Repr

/-- The body of the streaming loop (speech_service.py lines 156–198), one frame per
iteration: send the frame, then run one bounded receive. A timeout produces no
update; an exception aborts the loop after the current frame with an error update;
a message yields `(partial_text, status == 2)` when its flattened word text is
nonempty, where the `final` flag uses the status of the frame just **sent**.
Returns (frames actually sent, updates yielded). -/
def streamGo : List AudioFrame → List RSlot → List AudioFrame × List StreamUpdate
  | [], _ => ([], [])
  | f :: fs, slots =>
    match slots.headD RSlot.timeout with
    | RSlot.timeout =>
      let rest := streamGo fs slots.tail
      (f :: rest.1, rest.2)
    | RSlot.failed e => ([f], [StreamUpdate.error e])
    | RSlot.msg r =>
      let rest := streamGo fs slots.tail
      match r.result with
      | none => (f :: rest.1, rest.2)
      | some words =>
        let t := String.join words
        if t = "" then (f :: rest.1, rest.2)
        else (f :: rest.1, StreamUpdate.text t (f.status == 2) :: rest.2)

/-- `stream_speech_to_text` as a whole: chunk the buffer, then run the
send/receive loop against the scripted receive outcomes `slots` (one per
iteration; missing entries mean the receive timed out). -/
def stream_speech_to_text (cs : Nat) (buffer : List Nat) (slots : List RSlot) :
    List AudioFrame × List StreamUpdate :=
  streamGo (chunkFrames cs buffer) slots

/-- Rewrite the `data.status` field of every successfully parsed message. -/
def mapSlotStatus (g : Option Nat → Option Nat) : RSlot → RSlot
  | RSlot.msg r => RSlot.msg { r with status := g r.status }
  | s => s

lemma headD_mapSlotStatus (g : Option Nat → Option Nat) (slots : List RSlot) :
    (slots.map (mapSlotStatus g)).headD RSlot.timeout
      = mapSlotStatus g (slots.headD RSlot.timeout) := by
  cases slots <;> simp [mapSlotStatus]

/-- The receive side of the streaming loop never reads `data.status`: rewriting
all status fields leaves frames and updates unchanged. -/
lemma streamGo_status_blind (g : Option Nat → Option Nat) :
    ∀ (frames : List AudioFrame) (slots : List RSlot),
      streamGo frames (slots.map (mapSlotStatus g)) = streamGo frames slots := by
  intro frames
  induction frames with
  | nil => intro slots; simp [streamGo]
  | cons f fs ih =>
    intro slots
    rw [streamGo, streamGo, headD_mapSlotStatus]
    have htail : (slots.map (mapSlotStatus g)).tail = slots.tail.map (mapSlotStatus g) := by
      cases slots <;> simp
    cases hs : slots.headD RSlot.timeout with
    | timeout => simp only [mapSlotStatus]; rw [htail, ih]
    | failed e => simp only [mapSlotStatus]
    | msg r =>
      simp only [mapSlotStatus]
      cases hr : r.result with
      | none => simp only [hr]; rw [htail, ih]
      | some words => simp only [hr]; rw [htail, ih]

/-- At most as many final-tagged updates are yielded as END frames are sent. -/
lemma streamGo_final_le_end :
    ∀ (frames : List AudioFrame) (slots : List RSlot),
      (streamGo frames slots).2.countP
          (fun u => match u with | StreamUpdate.text _ true => true | _ => false)
        ≤ frames.countP (fun f => f.status == 2) := by
  intro frames
  induction frames with
  | nil => intro slots; simp [streamGo]
  | cons f fs ih =>
    intro slots
    rw [streamGo]
    cases hs : slots.headD RSlot.timeout with
    | timeout =>
      simp only [List.countP_cons]
      exact le_trans (ih slots.tail) (Nat.le_add_right _ _)
    | failed e => simp [List.countP_cons]
    | msg r =>
      cases hr : r.result with
      | none =>
        simp only [hr, List.countP_cons]
        exact le_trans (ih slots.tail) (Nat.le_add_right _ _)
      | some words =>
        simp only [hr]
        by_cases ht : String.join words = ""
        · simp only [if_pos ht, List.countP_cons]
          exact le_trans (ih slots.tail) (Nat.le_add_right _ _)
        · simp only [if_neg ht, List.countP_cons, List.countP_cons]
          have hmain := ih slots.tail
          cases hb : (f.status == 2) <;> simp [hb] <;> omega

/-- Rewrite the `code` field of every successfully parsed message. -/
def mapSlotCode (g : Nat → Nat) : RSlot → RSlot
  | RSlot.msg r => RSlot.msg { r with code := g r.code }
  | s => s

lemma headD_mapSlotCode (g : Nat → Nat) (slots : List RSlot) :
    (slots.map (mapSlotCode g)).headD RSlot.timeout
      = mapSlotCode g (slots.headD RSlot.timeout) := by
  cases slots <;> simp [mapSlotCode]

/-- The streaming receive path never reads the response `code`: rewriting all
code fields leaves frames and updates unchanged. -/
lemma streamGo_code_blind (g : Nat → Nat) :
    ∀ (frames : List AudioFrame) (slots : List RSlot),
      streamGo frames (slots.map (mapSlotCode g)) = streamGo frames slots := by
  intro frames
  induction frames with
  | nil => intro slots; simp [streamGo]
  | cons f fs ih =>
    intro slots
    rw [streamGo, streamGo, headD_mapSlotCode]
    have htail : (slots.map (mapSlotCode g)).tail = slots.tail.map (mapSlotCode g) := by
      cases slots <;> simp
    cases hs : slots.headD RSlot.timeout with
    | timeout => simp only [mapSlotCode]; rw [htail, ih]
    | failed e => simp only [mapSlotCode]
    | msg r =>
      simp only [mapSlotCode]
      cases hr : r.result with
      | none => simp only [hr]; rw [htail, ih]
      | some words => simp only [hr]; rw [htail, ih]

/-- When no receive attempt raises (every slot is a timeout or a message), the
send loop emits every frame and no error update is ever yielded. -/
lemma streamGo_no_failed :
    ∀ (frames : List AudioFrame) (slots : List RSlot),
      (∀ s ∈ slots, ∀ e, s ≠ RSlot.failed e) →
      (streamGo frames slots).1 = frames
        ∧ ∀ u ∈ (streamGo frames slots).2, ∀ e, u ≠ StreamUpdate.error e := by
  intro frames
  induction frames with
  | nil => intro slots _; simp [streamGo]
  | cons f fs ih =>
    intro slots hok
    have htail : ∀ s ∈ slots.tail, ∀ e, s ≠ RSlot.failed e :=
      fun s hs => hok s (List.mem_of_mem_tail hs)
    rw [streamGo]
    cases hs : slots.headD RSlot.timeout with
    | timeout =>
      dsimp only
      have := ih slots.tail htail
      refine ⟨by rw [this.1], ?_⟩
      intro u hu
      exact this.2 u hu
    | failed e =>
      exfalso
      have hmem : RSlot.failed e ∈ slots := by
        cases slots with
        | nil => simp at hs
        | cons a as =>
          simp only [List.headD_cons] at hs
          rw [hs] at *
          exact List.mem_cons_self _ _
      exact hok _ hmem e rfl
    | msg r =>
      dsimp only
      have := ih slots.tail htail
      cases hr : r.result with
      | none =>
        dsimp only
        refine ⟨by rw [this.1], ?_⟩
        intro u hu
        exact this.2 u hu
      | some words =>
        dsimp only
        by_cases ht : String.join words = ""
        · rw [if_pos ht]
          refine ⟨by rw [this.1], ?_⟩
          intro u hu
          exact this.2 u hu
        · rw [if_neg ht]
          refine ⟨by rw [this.1], ?_⟩
          intro u hu
          rcases List.mem_cons.mp hu with h | h
          · subst h; intro e; simp
          · exact this.2 u h

/-- One unfolding step of the chunk loop when more than one piece remains. -/
lemma chunkGo_of_lt (cs fuel : Nat) (first : Bool) (buf : List Nat)
    (hf : 0 < fuel) (hlt : cs < buf.length) :
    chunkGo cs fuel first buf
      = ⟨buf.take cs, if first then 0 else 1⟩ :: chunkGo cs (fuel - 1) false (buf.drop cs) := by
  cases fuel with
  | zero => omega
  | succ n =>
    have hb : buf ≠ [] := by
      intro hb; subst hb; simp at hlt
    rw [chunkGo]
    rw [if_neg hb, if_neg (by omega : ¬ buf.length ≤ cs)]
    rfl

/-- The final step of the chunk loop: the last (or only) piece is tagged END. -/
lemma chunkGo_of_le (cs fuel : Nat) (first : Bool) (buf : List Nat)
    (hf : 0 < fuel) (hpos : 0 < buf.length) (hle : buf.length ≤ cs) :
    chunkGo cs fuel first buf = [⟨buf, 2⟩] := by
  cases fuel with
  | zero => omega
  | succ n =>
    have hb : buf ≠ [] := by
      intro hb; subst hb; simp at hpos
    rw [chunkGo]
    rw [if_neg hb, if_pos hle]

/-- A parsed server message as read by the one-shot `SpeechService.speech_to_text`
(speech_service.py lines 116–136). `result` is `some cws` exactly when the keys
`data`, `data.result` and `data.result.ws` are all present, with `cws` the pairs
`(cw["w"], cw.get("wp", 0))` in nesting order; `status` is `data.status`. -/
structure AsrMsg where
  code : Nat
  message : String
  result : Option (List (String × Nat))
  status : Option Nat
deriving DecidableEq, Repr

/-- Receive loop of `SpeechService.speech_to_text` (speech_service.py lines
116–136): raise on a non-zero code (re-raised verbatim by the outer handler),
else append every `cw["w"]` to the running text and fold the confidence with
`confidence = max(confidence, cw.get("wp", 0) / 100.0)`, breaking once
`data.status == 2`.  Exhausting the message stream also returns the
accumulated result. -/
def sttGo (acc : String) (conf : ℚ) : List AsrMsg → Except String (String × ℚ)
  | [] => Except.ok (acc, conf)
  | m :: ms =>
    if m.code ≠ 0 then Except.error ("语音识别错误: " ++ m.message)
    else
      let acc' := acc ++ String.join ((m.result.getD []).map Prod.fst)
      let conf' := (m.result.getD []).foldl (fun c cw => max c ((cw.2 : ℚ) / 100)) conf
      if m.status = some 2 then Except.ok (acc', conf')
      else sttGo acc' conf' ms

/-- `SpeechService.speech_to_text` restricted to its receive/aggregation phase,
run against the parsed server messages. Returns the `{"text", "confidence"}`
pair, or the message of the exception it raises. -/
def speech_to_text (msgs : List AsrMsg) : Except String (String × ℚ) :=
  sttGo "" 0 msgs

/-- Modelled from the spec: the concatenation of all fragment texts in arrival
order with no separators. -/
def fragmentText (msgs : List AsrMsg) : String :=
  String.join (msgs.map fun m => String.join ((m.result.getD []).map Prod.fst))

/-- Modelled from the spec: the per-word confidences observed across all
fragments, on the 0–1 scale (`wp / 100`). -/
def wordConfs (msgs : List AsrMsg) : List ℚ :=
  (msgs.map fun m => (m.result.getD []).map fun cw => ((cw.2 : ℚ) / 100)).flatten

lemma foldl_string_append (l : List String) :
    ∀ (a b : String), l.foldl (· ++ ·) (a ++ b) = a ++ l.foldl (· ++ ·) b := by
  induction l with
  | nil => intro a b; simp
  | cons x xs ih =>
    intro a b
    simp only [List.foldl_cons]
    rw [String.append_assoc, ih]

lemma string_join_cons (s : String) (l : List String) :
    String.join (s :: l) = s ++ String.join l := by
  show List.foldl (· ++ ·) ("" ++ s) l = s ++ List.foldl (· ++ ·) "" l
  rw [String.empty_append]
  calc List.foldl (· ++ ·) s l = List.foldl (· ++ ·) (s ++ "") l := by
        rw [String.append_empty]
    _ = s ++ List.foldl (· ++ ·) "" l := foldl_string_append l s ""

lemma sttGo_spec (msgs : List AsrMsg) :
    ∀ (acc : String) (conf : ℚ),
      (∀ m ∈ msgs, m.code = 0) →
      (∀ m ∈ msgs.dropLast, m.status ≠ some 2) →
      sttGo acc conf msgs
        = Except.ok (acc ++ fragmentText msgs, (wordConfs msgs).foldl max conf) := by
  induction msgs with
  | nil => intro acc conf _ _; simp [sttGo, fragmentText, wordConfs, String.join]
  | cons m ms ih =>
    intro acc conf hcode hstat
    have hm : m.code = 0 := hcode m (List.mem_cons_self m ms)
    have hfold : ∀ (c : ℚ) (cws : List (String × Nat)),
        cws.foldl (fun c cw => max c ((cw.2 : ℚ) / 100)) c
          = (cws.map fun cw => ((cw.2 : ℚ) / 100)).foldl max c := by
      intro c cws
      rw [List.foldl_map]
    have htext : fragmentText (m :: ms)
        = String.join ((m.result.getD []).map Prod.fst) ++ fragmentText ms := by
      rw [fragmentText, List.map_cons, string_join_cons]; rfl
    have hconf : wordConfs (m :: ms)
        = ((m.result.getD []).map fun cw => ((cw.2 : ℚ) / 100)) ++ wordConfs ms := by
      simp [wordConfs]
    cases ms with
    | nil =>
      simp only [sttGo, hm]
      have hne : ¬ (0 : Nat) ≠ 0 := by simp
      rw [if_neg hne]
      have hend : fragmentText ([] : List AsrMsg) = "" := by
        simp [fragmentText, String.join]
      have hcend : wordConfs ([] : List AsrMsg) = [] := by simp [wordConfs]
      by_cases h2 : m.status = some 2 <;>
        simp [h2, sttGo, htext, hconf, hfold, hend, hcend, List.foldl_append,
          String.append_assoc, String.append_empty]
    | cons m2 ms2 =>
      have hm2 : m.status ≠ some 2 := by
        apply hstat
        rw [show (m :: m2 :: ms2).dropLast = m :: (m2 :: ms2).dropLast from rfl]
        exact List.mem_cons_self _ _
      rw [sttGo]
      dsimp only
      rw [if_neg (by simp [hm] : ¬ m.code ≠ 0), if_neg hm2]
      rw [ih _ _ (fun x hx => hcode x (List.mem_cons_of_mem m hx))
        (fun x hx => hstat x (by
          rw [show (m :: m2 :: ms2).dropLast = m :: (m2 :: ms2).dropLast from rfl]
          exact List.mem_cons_of_mem m hx))]
      rw [htext, hconf, List.foldl_append, hfold, String.append_assoc]

/-- A parsed server message as read by `SpeechService.recognize_speech`
(app/services/speech_service.py lines 137–159). `result` is `some cws` exactly
when `data`, `data.result` and `data.result.ws` are present and non-empty, with
`cws` the pairs `(cw.get("w", ""), cw.get("sc", 0.0))` in nesting order. -/
structure RecogMsg where
  code : Nat
  message : String
  result : Option (List (String × ℚ))
  status : Option Nat
deriving DecidableEq, Repr

/-- The dictionary `recognize_speech` returns: `{"success": True, "text", "confidence"}`
or `{"success": False, "error"}`. -/
inductive RecogResult where
  | ok (text : String) (confidence : ℚ)
  | failure (error : String)
deriving DecidableEq, Repr

/-- Python's `str.strip()`: remove whitespace from both ends of the string
(modelled on character lists; the fragments here contain only ASCII whitespace,
where Python's and Lean's whitespace predicates agree). -/
def strip (s : String) : String :=
  ⟨((s.data.dropWhile Char.isWhitespace).reverse.dropWhile Char.isWhitespace).reverse⟩

/-- `confidence / 100.0 if confidence > 1 else confidence`
(app/services/speech_service.py line 164). -/
def normalizeConf (c : ℚ) : ℚ := if 1 < c then c / 100 else c

/-- Receive loop of `recognize_speech` (app/services/speech_service.py lines
137–165): on a non-zero code return the failure envelope with the remote
message; else append every `cw.get("w", "")` and fold
`confidence = max(confidence, cw.get("sc", 0.0))`, breaking once
`data.status == 2`; finally return the accumulated text **stripped** and the
conditionally normalized confidence. -/
def recognizeGo (acc : String) (conf : ℚ) : List RecogMsg → RecogResult
  | [] => RecogResult.ok (strip acc) (normalizeConf conf)
  | m :: ms =>
    if m.code ≠ 0 then RecogResult.failure m.message
    else
      let acc' := acc ++ String.join ((m.result.getD []).map Prod.fst)
      let conf' := (m.result.getD []).foldl (fun c cw => max c cw.2) conf
      if m.status = some 2 then RecogResult.ok (strip acc') (normalizeConf conf')
      else recognizeGo acc' conf' ms

/-- `SpeechService.recognize_speech` restricted to its receive/aggregation phase. -/
def recognize_speech (msgs : List RecogMsg) : RecogResult :=
  recognizeGo "" 0 msgs

/-- Modelled from the spec: concatenation of the fragment texts of the
`recognize_speech` message stream, in arrival order, without separators. -/
def fragmentTextR (msgs : List RecogMsg) : String :=
  String.join (msgs.map fun m => String.join ((m.result.getD []).map Prod.fst))

/-- Modelled from the spec: the raw per-word confidences (`sc` values) observed
across all fragments. -/
def wordConfsR (msgs : List RecogMsg) : List ℚ :=
  (msgs.map fun m => (m.result.getD []).map Prod.snd).flatten

lemma recognizeGo_spec (msgs : List RecogMsg) :
    ∀ (acc : String) (conf : ℚ),
      (∀ m ∈ msgs, m.code = 0) →
      (∀ m ∈ msgs.dropLast, m.status ≠ some 2) →
      recognizeGo acc conf msgs
        = RecogResult.ok (strip (acc ++ fragmentTextR msgs))
            (normalizeConf ((wordConfsR msgs).foldl max conf)) := by
  induction msgs with
  | nil =>
    intro acc conf _ _
    simp [recognizeGo, fragmentTextR, wordConfsR, String.join, String.append_empty]
  | cons m ms ih =>
    intro acc conf hcode hstat
    have hm : m.code = 0 := hcode m (List.mem_cons_self m ms)
    have hfold : ∀ (c : ℚ) (cws : List (String × ℚ)),
        cws.foldl (fun c cw => max c cw.2) c = (cws.map Prod.snd).foldl max c := by
      intro c cws
      rw [List.foldl_map]
    have htext : fragmentTextR (m :: ms)
        = String.join ((m.result.getD []).map Prod.fst) ++ fragmentTextR ms := by
      rw [fragmentTextR, List.map_cons, string_join_cons]; rfl
    have hconf : wordConfsR (m :: ms)
        = (m.result.getD []).map Prod.snd ++ wordConfsR ms := by
      simp [wordConfsR]
    cases ms with
    | nil =>
      rw [recognizeGo]
      dsimp only
      rw [if_neg (by simp [hm] : ¬ m.code ≠ 0)]
      have hend : fragmentTextR ([] : List RecogMsg) = "" := by
        simp [fragmentTextR, String.join]
      have hcend : wordConfsR ([] : List RecogMsg) = [] := by simp [wordConfsR]
      by_cases h2 : m.status = some 2
      · rw [if_pos h2, htext, hconf, hend, hcend]
        simp [hfold, List.foldl_append, String.append_assoc, String.append_empty]
      · rw [if_neg h2, recognizeGo, htext, hconf, hend, hcend]
        simp [hfold, List.foldl_append, String.append_assoc, String.append_empty]
    | cons m2 ms2 =>
      have hm2 : m.status ≠ some 2 := by
        apply hstat
        rw [show (m :: m2 :: ms2).dropLast = m :: (m2 :: ms2).dropLast from rfl]
        exact List.mem_cons_self _ _
      rw [recognizeGo]
      dsimp only
      rw [if_neg (by simp [hm] : ¬ m.code ≠ 0), if_neg hm2]
      rw [ih _ _ (fun x hx => hcode x (List.mem_cons_of_mem m hx))
        (fun x hx => hstat x (by
          rw [show (m :: m2 :: ms2).dropLast = m :: (m2 :: ms2).dropLast from rfl]
          exact List.mem_cons_of_mem m hx))]
      rw [htext, hconf, List.foldl_append, hfold, String.append_assoc]

/-- The `data` object of a TTS server message as read by
`IFlytekVoiceService.text_to_speech` (voice_service.py lines 141–152). `audio` is
the base64-decoded audio bytes when the `"audio"` key is present, `none` when it
is absent (the code indexes `data["data"]["audio"]` directly, so an absent key
raises `KeyError('audio')`). -/
structure TtsData where
  audio : Option (List Nat)
deriving DecidableEq, Repr

/-- A parsed TTS server message: `code`, `message`, and the optional `data`
object. -/
structure TtsMsg where
  code : Nat
  message : String
  data : Option TtsData
deriving DecidableEq, Repr

/-- Receive loop of `IFlytekVoiceService.text_to_speech` (voice_service.py lines
141–155). There is no completion/status check: every message of the stream is
processed. On `code == 0` with a `data` object present, `data["data"]["audio"]`
is indexed directly: a missing `"audio"` key raises `KeyError('audio')`, which
the outer handler re-wraps as `Exception("语音合成失败: 'audio'")` (Python's
`str` of that `KeyError` is `'audio'`). A non-zero code raises
`Exception("TTS错误: ...")`, re-wrapped as `"语音合成失败: TTS错误: ..."`. -/
def ttsGo (acc : List Nat) : List TtsMsg → Except String (List Nat)
  | [] => Except.ok acc
  | m :: ms =>
    if m.code = 0 then
      match m.data with
      | none => ttsGo acc ms
      | some d =>
        match d.audio with
        | none => Except.error "语音合成失败: 'audio'"
        | some bytes => ttsGo (acc ++ bytes) ms
    else Except.error ("语音合成失败: TTS错误: " ++ m.message)

/-- `IFlytekVoiceService.text_to_speech` restricted to its receive/accumulation
phase, run against the parsed server messages. -/
def text_to_speech (msgs : List TtsMsg) : Except String (List Nat) :=
  ttsGo [] msgs

/-- A TTS message the `text_to_speech` loop consumes without raising: success
code, and if a `data` object is present it carries an `"audio"` key. -/
def ttsBenign (m : TtsMsg) : Prop :=
  m.code = 0 ∧ ∀ d, m.data = some d → d.audio.isSome

lemma ttsGo_error_of_missing_audio (pre : List TtsMsg) :
    ∀ (acc : List Nat) (bad : TtsMsg) (rest : List TtsMsg) (d : TtsData),
      (∀ m ∈ pre, ttsBenign m) → bad.code = 0 → bad.data = some d → d.audio = none →
      ttsGo acc (pre ++ bad :: rest) = Except.error "语音合成失败: 'audio'" := by
  induction pre with
  | nil =>
    intro acc bad rest d _ hc hd ha
    simp only [List.nil_append, ttsGo, hc, if_pos rfl, hd, ha]
    simp
  | cons p ps ih =>
    intro acc bad rest d hben hc hd ha
    have hp := hben p (List.mem_cons_self p ps)
    have hps : ∀ m ∈ ps, ttsBenign m := fun m hm => hben m (List.mem_cons_of_mem p hm)
    rw [List.cons_append, ttsGo]
    rw [if_pos hp.1]
    cases hpd : p.data with
    | none =>
      dsimp only
      exact ih acc bad rest d hps hc hd ha
    | some pd =>
      dsimp only
      cases hpa : pd.audio with
      | none =>
        exfalso
        have := hp.2 pd hpd
        rw [hpa] at this
        simp at this
      | some bytes =>
        dsimp only
        exact ih (acc ++ bytes) bad rest d hps hc hd ha

/-!
## URL signing (`_generate_auth_url`)

Three implementations exist. `backend/services/speech_service.py` lines 34–63 and
`backend/services/voice_service.py` lines 33–63 build the canonical signing
string with a **hard-coded** host and request line,

    signature_origin = f"host: ws-api.xfyun.cn\ndate: {date}\nGET /v2/iat HTTP/1.1"

ignoring the base URL they were given, and append `"host": "ws-api.xfyun.cn"` as
query parameter. `backend/app/services/speech_service.py` lines 57–91 parses the
URL and uses its actual netloc and path. Only the canonical-string and
host-parameter construction is modelled; the HMAC digest applied afterwards is a
function of the canonical string and plays no part in the claims.
-/

/-- The character list after the `"://"` scheme separator, or the whole input if
no separator is present (mirrors `urllib.parse.urlparse` on the URLs used here). -/
def afterScheme (s : List Char) : List Char :=
  match s.dropWhile (· ≠ ':') with
  | ':' :: '/' :: '/' :: rest => rest
  | _ => s

/-- `urllib.parse.urlparse(url).netloc` for the `wss://host/path` URLs used by
the services. -/
def urlparse_netloc (u : String) : String :=
  ⟨(afterScheme u.data).takeWhile (· ≠ '/')⟩

/-- `urllib.parse.urlparse(url).path` for the `wss://host/path` URLs used by the
services. -/
def urlparse_path (u : String) : String :=
  ⟨(afterScheme u.data).dropWhile (· ≠ '/')⟩

/-- Canonical signing string of `SpeechService._generate_auth_url`
(services/speech_service.py line 41) and `IFlytekVoiceService._generate_auth_url`
(voice_service.py line 39): host and request line are hard-coded, the base URL
argument is ignored. -/
def legacy_signature_origin (base_url date : String) : String :=
  "host: ws-api.xfyun.cn\ndate: " ++ date ++ "\nGET /v2/iat HTTP/1.1"

/-- The `host` query parameter the two legacy variants append
(services/speech_service.py line 58, voice_service.py line 58). -/
def legacy_host_param (base_url : String) : String := "ws-api.xfyun.cn"

/-- Canonical signing string of the app variant
(app/services/speech_service.py line 70): built from the parsed netloc and path
of the given URL. -/
def app_signature_origin (url date : String) : String :=
  "host: " ++ urlparse_netloc url ++ "\ndate: " ++ date ++ "\nGET "
    ++ urlparse_path url ++ " HTTP/1.1"

/-- The `host` query parameter the app variant appends
(app/services/speech_service.py line 88). -/
def app_host_param (url : String) : String := urlparse_netloc url

/-- Modelled from the spec: `"host: {host}\ndate: {date}\n{verb} {path} HTTP/1.1"`
with host and path taken from the base endpoint URL. -/
def spec_canonical_string (url date verb : String) : String :=
  "host: " ++ urlparse_netloc url ++ "\ndate: " ++ date ++ "\n" ++ verb ++ " "
    ++ urlparse_path url ++ " HTTP/1.1"

/-- The ASR endpoint URL (identical in all three files). -/
def asr_url : String := "wss://iat-api.xfyun.cn/v2/iat"

/-- The TTS endpoint URL (identical in all three files). -/
def tts_url : String := "wss://tts-api.xfyun.cn/v2/tts"

/-!
## WAV container (`_convert_to_wav`, app/services/speech_service.py lines 239–256)

`_convert_to_wav` writes the raw PCM through Python's `wave` module with
`nchannels = 1`, `sampwidth = 2` (16 bits) and `framerate = self.sample_rate`,
producing the canonical 44-byte RIFF/WAVE header followed by the unmodified
sample bytes. On any exception the `except` branch returns the raw input
unchanged.
-/

/-- Two-byte little-endian encoding (shape of `wave`'s `<H` fields). -/
def le16 (n : Nat) : List Nat := [n % 256, n / 256 % 256]

/-- Four-byte little-endian encoding (shape of `wave`'s `<L` fields). -/
def le32 (n : Nat) : List Nat :=
  [n % 256, n / 256 % 256, n / 65536 % 256, n / 16777216 % 256]

/-- The bytes Python's `wave` module emits for mono 16-bit PCM at `sampleRate`:
`RIFF` header, `fmt ` chunk (PCM, 1 channel, 16 bits, byte rate
`sampleRate * 2`, block align 2) and the `data` chunk holding the raw bytes. -/
def wavBytes (sampleRate : Nat) (pcm : List Nat) : List Nat :=
  [82, 73, 70, 70] ++ le32 (36 + pcm.length)
    ++ [87, 65, 86, 69]
    ++ [102, 109, 116, 32] ++ le32 16 ++ le16 1 ++ le16 1
    ++ le32 sampleRate ++ le32 (sampleRate * 2) ++ le16 2 ++ le16 16
    ++ [100, 97, 116, 97] ++ le32 pcm.length ++ pcm

/-- The first 44 bytes of a byte list (the fixed WAV header span for the files
`wavBytes` produces), as named fields, together with the remaining bytes. -/
structure WavHdr where
  b0 : Nat
  b1 : Nat
  b2 : Nat
  b3 : Nat
  b4 : Nat
  b5 : Nat
  b6 : Nat
  b7 : Nat
  b8 : Nat
  b9 : Nat
  b10 : Nat
  b11 : Nat
  b12 : Nat
  b13 : Nat
  b14 : Nat
  b15 : Nat
  b16 : Nat
  b17 : Nat
  b18 : Nat
  b19 : Nat
  b20 : Nat
  b21 : Nat
  b22 : Nat
  b23 : Nat
  b24 : Nat
  b25 : Nat
  b26 : Nat
  b27 : Nat
  b28 : Nat
  b29 : Nat
  b30 : Nat
  b31 : Nat
  b32 : Nat
  b33 : Nat
  b34 : Nat
  b35 : Nat
  b36 : Nat
  b37 : Nat
  b38 : Nat
  b39 : Nat
  b40 : Nat
  b41 : Nat
  b42 : Nat
  b43 : Nat
  rest : List Nat
deriving DecidableEq, Repr

/-- Split off the 44 header bytes, failing on shorter inputs. -/
def bytes44 : List Nat → Option WavHdr
  | x0 :: x1 :: x2 :: x3 :: x4 :: x5 :: x6 :: x7 :: x8 :: x9
      :: x10 :: x11 :: x12 :: x13 :: x14 :: x15 :: x16 :: x17 :: x18 :: x19
      :: x20 :: x21 :: x22 :: x23 :: x24 :: x25 :: x26 :: x27 :: x28 :: x29
      :: x30 :: x31 :: x32 :: x33 :: x34 :: x35 :: x36 :: x37 :: x38 :: x39
      :: x40 :: x41 :: x42 :: x43 :: rest =>
    some ⟨x0, x1, x2, x3, x4, x5, x6, x7, x8, x9,
      x10, x11, x12, x13, x14, x15, x16, x17, x18, x19,
      x20, x21, x22, x23, x24, x25, x26, x27, x28, x29,
      x30, x31, x32, x33, x34, x35, x36, x37, x38, x39,
      x40, x41, x42, x43, rest⟩
  | _ => none

/-- A standard WAV reader for the fixed-layout files `wavBytes` produces:
checks the `RIFF`/`WAVE`/`fmt `/`data` magics (bytes 0–3, 8–11, 12–15, 36–39),
the fmt-chunk size (16), the PCM format tag (1) and the declared riff/data chunk
sizes, and returns `(channels, bitsPerSample, sampleRate, payload)` read
little-endian from bytes 22–23, 34–35, 24–27 and the tail. -/
def parseWav (b : List Nat) : Option (Nat × Nat × Nat × List Nat) :=
  match bytes44 b with
  | none => none
  | some h =>
    if h.b0 = 82 ∧ h.b1 = 73 ∧ h.b2 = 70 ∧ h.b3 = 70
        ∧ h.b8 = 87 ∧ h.b9 = 65 ∧ h.b10 = 86 ∧ h.b11 = 69
        ∧ h.b12 = 102 ∧ h.b13 = 109 ∧ h.b14 = 116 ∧ h.b15 = 32
        ∧ h.b16 = 16 ∧ h.b17 = 0 ∧ h.b18 = 0 ∧ h.b19 = 0
        ∧ h.b20 = 1 ∧ h.b21 = 0
        ∧ h.b36 = 100 ∧ h.b37 = 97 ∧ h.b38 = 116 ∧ h.b39 = 97
        ∧ h.rest.length = h.b40 + 256 * h.b41 + 65536 * h.b42 + 16777216 * h.b43
        ∧ h.b4 + 256 * h.b5 + 65536 * h.b6 + 16777216 * h.b7
            = 36 + (h.b40 + 256 * h.b41 + 65536 * h.b42 + 16777216 * h.b43) then
      some (h.b22 + 256 * h.b23, h.b34 + 256 * h.b35,
        h.b24 + 256 * h.b25 + 65536 * h.b26 + 16777216 * h.b27, h.rest)
    else none

/-- `SpeechService._convert_to_wav` (app/services/speech_service.py lines
239–256). `wrapFails` models the `wave`-module call raising an exception: the
`except` branch then returns the raw input bytes unchanged instead of
propagating the error. -/
def convert_to_wav (wrapFails : Bool) (sample_rate : Nat) (raw_audio : List Nat) :
    List Nat :=
  if wrapFails then raw_audio else wavBytes sample_rate raw_audio

/-- The success envelope `synthesize_speech` builds after accumulating the audio
(app/services/speech_service.py lines 225–233): `success` is unconditionally
`True`, the audio is whatever `_convert_to_wav` returned, and the declared
format is `"wav"`. -/
structure SynthResult where
  success : Bool
  audio : List Nat
  format : String
deriving DecidableEq, Repr

/-- The tail of `synthesize_speech` (app/services/speech_service.py lines
225–233): wrap the accumulated audio and report success with format `"wav"`. -/
def synthesize_speech_result (wrapFails : Bool) (sample_rate : Nat)
    (audio_data : List Nat) : SynthResult :=
  { success := true
    audio := convert_to_wav wrapFails sample_rate audio_data
    format := "wav" }

lemma le32_decode (n : Nat) (h : n < 4294967296) :
    n % 256 + 256 * (n / 256 % 256) + 65536 * (n / 65536 % 256)
      + 16777216 * (n / 16777216 % 256) = n := by
  omega

lemma parseWav_wavBytes (sampleRate : Nat) (pcm : List Nat)
    (hsr : sampleRate = 16000) (hlen : pcm.length + 36 < 4294967296) :
    parseWav (wavBytes sampleRate pcm) = some (1, 16, sampleRate, pcm) := by
  subst hsr
  have hform : wavBytes 16000 pcm
      = 82 :: 73 :: 70 :: 70
        :: ((36 + pcm.length) % 256) :: ((36 + pcm.length) / 256 % 256)
        :: ((36 + pcm.length) / 65536 % 256) :: ((36 + pcm.length) / 16777216 % 256)
        :: 87 :: 65 :: 86 :: 69
        :: 102 :: 109 :: 116 :: 32 :: 16 :: 0 :: 0 :: 0 :: 1 :: 0
        :: 1 :: 0 :: 128 :: 62 :: 0 :: 0 :: 0 :: 125 :: 0 :: 0 :: 2 :: 0
        :: 16 :: 0 :: 100 :: 97 :: 116 :: 97
        :: (pcm.length % 256) :: (pcm.length / 256 % 256)
        :: (pcm.length / 65536 % 256) :: (pcm.length / 16777216 % 256) :: pcm := by
    simp [wavBytes, le16, le32]
  rw [hform]
  have hdata : pcm.length % 256 + 256 * (pcm.length / 256 % 256)
      + 65536 * (pcm.length / 65536 % 256)
      + 16777216 * (pcm.length / 16777216 % 256) = pcm.length :=
    le32_decode _ (by omega)
  have hriff : (36 + pcm.length) % 256 + 256 * ((36 + pcm.length) / 256 % 256)
      + 65536 * ((36 + pcm.length) / 65536 % 256)
      + 16777216 * ((36 + pcm.length) / 16777216 % 256) = 36 + pcm.length :=
    le32_decode _ (by omega)
  simp [parseWav, bytes44, hdata, hriff]

/-- The three server replies of the full-session scenario: two partial
fragments, then a final fragment whose `data.status` is the completion
marker 2. -/
def c7_slots : List RSlot :=
  [RSlot.msg ⟨0, "", some ["你好"], some 1⟩,
   RSlot.msg ⟨0, "", some ["世"], some 1⟩,
   RSlot.msg ⟨0, "", some ["界"], some 2⟩]

lemma chunkFrames_3000 (buf : List Nat) (h : buf.length = 3000) :
    chunkFrames 1280 buf
      = [⟨buf.take 1280, 0⟩, ⟨(buf.drop 1280).take 1280, 1⟩,
         ⟨buf.drop 2560, 2⟩] := by
  have h1 : (buf.drop 1280).length = 1720 := by
    rw [List.length_drop, h]
  have h2 : (buf.drop 2560).length = 440 := by
    rw [List.length_drop, h]
  rw [chunkFrames, h]
  rw [chunkGo_of_lt 1280 3000 true buf (by omega) (by omega)]
  norm_num
  rw [chunkGo_of_lt 1280 2999 false (buf.drop 1280) (by omega) (by omega)]
  norm_num
  rw [chunkGo_of_le 1280 2998 false (buf.drop 2560) (by omega) (by omega) (by omega)]

lemma c7_session (buf : List Nat) (h : buf.length = 3000) :
    (chunkFrames 1280 buf).map AudioFrame.status = [0, 1, 2]
    ∧ (stream_speech_to_text 1280 buf c7_slots).2
        = [StreamUpdate.text "你好" false, StreamUpdate.text "世" false,
           StreamUpdate.text "界" true] := by
  constructor
  · rw [chunkFrames_3000 buf h]
    rfl
  · rw [stream_speech_to_text, chunkFrames_3000 buf h]
    have e1 : ¬("你好" : String) = "" := by decide
    have e2 : ¬("世" : String) = "" := by decide
    have e3 : ¬("界" : String) = "" := by decide
    simp only [c7_slots, streamGo, List.headD_cons, List.tail_cons]
    norm_num [String.join, e1, e2, e3]

/-- C1: for every buffer and `maxFrameBytes > 0`, the streaming chunker's
frames each carry at most `maxFrameBytes` payload bytes and concatenate back to
the buffer with positions 0, 1, 2, …; but only buffers longer than
`maxFrameBytes` get exactly one START and one END frame — a nonempty buffer of
at most `maxFrameBytes` bytes becomes a single frame tagged END (no START
frame), and an empty buffer yields no frames at all. -/
theorem chunk_frames_amended (cs : Nat) (buffer : List Nat) (hcs : 0 < cs) :
    (∀ f ∈ chunkFrames cs buffer, f.payload.length ≤ cs)
    ∧ ((chunkFrames cs buffer).map AudioFrame.payload).flatten = buffer
    ∧ (chunkFrames cs buffer).enum.map Prod.fst
        = List.range (chunkFrames cs buffer).length
    ∧ (cs < buffer.length →
        (chunkFrames cs buffer).countP (fun f => f.status == 0) = 1
        ∧ (chunkFrames cs buffer).countP (fun f => f.status == 2) = 1)
    ∧ (0 < buffer.length → buffer.length ≤ cs → chunkFrames cs buffer = [⟨buffer, 2⟩])
    ∧ (buffer = [] → chunkFrames cs buffer = []) := by
  refine ⟨?_, ?_, ?_, ?_, ?_, ?_⟩
  · exact fun f hf => chunkGo_payload_le cs buffer.length true buffer f hf
  · exact chunkGo_join cs hcs buffer.length true buffer le_rfl
  · simp
  · intro hlt
    exact ⟨chunkGo_count_start cs hcs buffer.length buffer le_rfl hlt,
      chunkGo_count_end cs hcs buffer.length true buffer le_rfl (by omega)⟩
  · intro hpos hle
    exact chunkGo_of_le cs buffer.length true buffer (by omega) hpos hle
  · intro hb
    subst hb
    rfl

/-- C1 witness: the amended chunking property at `maxFrameBytes = 2` and the
buffer `[1, 2, 3]`. -/
theorem chunk_frames_amended_witness :
    0 < 2
    ∧ ((∀ f ∈ chunkFrames 2 [1, 2, 3], f.payload.length ≤ 2)
      ∧ ((chunkFrames 2 [1, 2, 3]).map AudioFrame.payload).flatten = [1, 2, 3]
      ∧ (chunkFrames 2 [1, 2, 3]).enum.map Prod.fst
          = List.range (chunkFrames 2 [1, 2, 3]).length
      ∧ (2 < ([1, 2, 3] : List Nat).length →
          (chunkFrames 2 [1, 2, 3]).countP (fun f => f.status == 0) = 1
          ∧ (chunkFrames 2 [1, 2, 3]).countP (fun f => f.status == 2) = 1)
      ∧ (0 < ([1, 2, 3] : List Nat).length → ([1, 2, 3] : List Nat).length ≤ 2 →
          chunkFrames 2 [1, 2, 3] = [⟨[1, 2, 3], 2⟩])
      ∧ (([1, 2, 3] : List Nat) = [] → chunkFrames 2 [1, 2, 3] = [])) :=
  ⟨by decide, chunk_frames_amended 2 [1, 2, 3] (by decide)⟩

/-- C1 counterexample: chunking a 3-byte buffer at `maxFrameBytes = 1280`
produces a single frame tagged END and **no** frame tagged START, refuting
"exactly one frame carries status START" for every buffer. -/
theorem chunk_single_piece_counterexample :
    chunkFrames 1280 [1, 2, 3] = [⟨[1, 2, 3], 2⟩]
    ∧ (chunkFrames 1280 [1, 2, 3]).countP (fun f => f.status == 0) = 0 := by
  decide

/-- C2: only the app variant builds the canonical signing string from the host
and path of the given base URL (and appends that host as the `host` query
parameter); the two legacy variants use the fixed host `ws-api.xfyun.cn` and
fixed request line `GET /v2/iat HTTP/1.1` for every endpoint, matching neither
endpoint's actual host. -/
theorem signing_string_amended :
    (∀ url date, app_signature_origin url date = spec_canonical_string url date "GET")
    ∧ (∀ url, app_host_param url = urlparse_netloc url)
    ∧ spec_canonical_string tts_url "Mon, 01 Jan 2024 00:00:00 GMT" "GET"
        = "host: tts-api.xfyun.cn\ndate: Mon, 01 Jan 2024 00:00:00 GMT\nGET /v2/tts HTTP/1.1"
    ∧ (∀ url date, legacy_signature_origin url date = legacy_signature_origin asr_url date)
    ∧ (∀ url, legacy_host_param url = "ws-api.xfyun.cn") := by
  refine ⟨?_, fun _ => rfl, by decide, fun _ _ => rfl, fun _ => rfl⟩
  intro url date
  apply String.ext
  have hd : ("\nGET " : String).data
      = ("\n" : String).data ++ ("GET" : String).data ++ (" " : String).data := by
    decide
  simp [app_signature_origin, spec_canonical_string, String.data_append, hd]

/-- C2 counterexample: signing the TTS endpoint with the legacy routine embeds
neither the TTS host nor the TTS path (the signing string differs from the
spec's host/path-derived canonical string, and the appended `host` parameter is
not the URL's host); the same holds even for the ASR endpoint. -/
theorem signing_string_counterexample :
    legacy_signature_origin tts_url "Mon, 01 Jan 2024 00:00:00 GMT"
        ≠ spec_canonical_string tts_url "Mon, 01 Jan 2024 00:00:00 GMT" "GET"
    ∧ legacy_host_param tts_url ≠ urlparse_netloc tts_url
    ∧ legacy_signature_origin asr_url "Mon, 01 Jan 2024 00:00:00 GMT"
        ≠ spec_canonical_string asr_url "Mon, 01 Jan 2024 00:00:00 GMT" "GET" := by
  decide

/-- C3: for benign message streams the one-shot `speech_to_text` returns exactly
the concatenation of the fragment texts with the maximum of the `wp / 100`
confidences, while `recognize_speech` returns that concatenation **stripped of
leading/trailing whitespace** with the conditionally normalized maximum `sc`;
on the concrete fragments 你好 (0.8) then 世界 (0.95, final) both yield
"你好世界" with confidence 0.95. -/
theorem asr_aggregation_amended (msgs : List AsrMsg) (rmsgs : List RecogMsg)
    (h1 : ∀ m ∈ msgs, m.code = 0) (h2 : ∀ m ∈ msgs.dropLast, m.status ≠ some 2)
    (h3 : ∀ m ∈ rmsgs, m.code = 0) (h4 : ∀ m ∈ rmsgs.dropLast, m.status ≠ some 2) :
    speech_to_text msgs = Except.ok (fragmentText msgs, (wordConfs msgs).foldl max 0)
    ∧ recognize_speech rmsgs
        = RecogResult.ok (strip (fragmentTextR rmsgs))
            (normalizeConf ((wordConfsR rmsgs).foldl max 0))
    ∧ speech_to_text [⟨0, "", some [("你好", 80)], some 1⟩,
        ⟨0, "", some [("世界", 95)], some 2⟩] = Except.ok ("你好世界", 19/20)
    ∧ recognize_speech [⟨0, "", some [("你好", 4/5)], none⟩,
        ⟨0, "", some [("世界", 19/20)], some 2⟩]
        = RecogResult.ok "你好世界" (19/20) := by
  refine ⟨?_, ?_, ?_, ?_⟩
  · rw [speech_to_text, sttGo_spec msgs "" 0 h1 h2, String.empty_append]
  · rw [recognize_speech, recognizeGo_spec rmsgs "" 0 h3 h4, String.empty_append]
  · norm_num [speech_to_text, sttGo, max_def]
    decide
  · rw [recognize_speech, recognizeGo]
    dsimp only
    rw [if_neg (by decide : ¬(0 : Nat) ≠ 0),
      if_neg (by decide : ¬(none : Option Nat) = some 2)]
    rw [recognizeGo]
    dsimp only
    rw [if_neg (by decide : ¬(0 : Nat) ≠ 0), if_pos rfl]
    norm_num [normalizeConf, max_def]
    decide

/-- C3 witness: the amended aggregation property at the concrete message
streams of the scenario. -/
theorem asr_aggregation_amended_witness :
    speech_to_text [⟨0, "", some [("你好", 80)], some 1⟩,
        ⟨0, "", some [("世界", 95)], some 2⟩]
      = Except.ok
          (fragmentText [⟨0, "", some [("你好", 80)], some 1⟩,
            ⟨0, "", some [("世界", 95)], some 2⟩],
           (wordConfs [⟨0, "", some [("你好", 80)], some 1⟩,
            ⟨0, "", some [("世界", 95)], some 2⟩]).foldl max 0)
    ∧ recognize_speech [⟨0, "", some [("你好", 4/5)], none⟩,
        ⟨0, "", some [("世界", 19/20)], some 2⟩]
      = RecogResult.ok
          (strip (fragmentTextR [⟨0, "", some [("你好", 4/5)], none⟩,
            ⟨0, "", some [("世界", 19/20)], some 2⟩]))
          (normalizeConf ((wordConfsR [⟨0, "", some [("你好", 4/5)], none⟩,
            ⟨0, "", some [("世界", 19/20)], some 2⟩]).foldl max 0))
    ∧ speech_to_text [⟨0, "", some [("你好", 80)], some 1⟩,
        ⟨0, "", some [("世界", 95)], some 2⟩] = Except.ok ("你好世界", 19/20)
    ∧ recognize_speech [⟨0, "", some [("你好", 4/5)], none⟩,
        ⟨0, "", some [("世界", 19/20)], some 2⟩]
        = RecogResult.ok "你好世界" (19/20) := by
  have h := asr_aggregation_amended
    [⟨0, "", some [("你好", 80)], some 1⟩, ⟨0, "", some [("世界", 95)], some 2⟩]
    [⟨0, "", some [("你好", 4/5)], none⟩, ⟨0, "", some [("世界", 19/20)], some 2⟩]
    (by decide) (by decide) (by decide) (by decide)
  exact ⟨h.1, h.2.1, h.2.2.1, h.2.2.2⟩

/-- C3 counterexample: `recognize_speech` strips the concatenation, so a final
fragment with a trailing space yields "你好", not the exact concatenation
"你好 " — the final text is not always the unmodified concatenation of the
fragment texts. -/
theorem recognize_strip_counterexample :
    recognize_speech [⟨0, "", some [("你好 ", 4/5)], some 2⟩]
      = RecogResult.ok "你好" (4/5)
    ∧ ("你好" : String) ≠ "你好 " := by
  constructor
  · norm_num [recognize_speech, recognizeGo, normalizeConf, max_def]
    decide
  · decide

/-- C4: the streaming receive path never reads the server's `data.status` — its
output is unchanged under arbitrary rewriting of every status field — and a
result is tagged final only in the iteration that sent the END frame (at most
as many final tags as END frames). -/
theorem stream_final_flag_amended (g : Option Nat → Option Nat) (cs : Nat)
    (buffer : List Nat) (slots : List RSlot) :
    stream_speech_to_text cs buffer (slots.map (mapSlotStatus g))
      = stream_speech_to_text cs buffer slots
    ∧ (stream_speech_to_text cs buffer slots).2.countP
        (fun u => match u with | StreamUpdate.text _ true => true | _ => false)
      ≤ (chunkFrames cs buffer).countP (fun f => f.status == 2) :=
  ⟨streamGo_status_blind g (chunkFrames cs buffer) slots,
   streamGo_final_le_end (chunkFrames cs buffer) slots⟩

/-- C4 counterexample: a one-chunk buffer makes the send status 2, so the reply
to that frame is tagged final even though the only server message observed has
`data.status = 1`, never the completion marker 2. -/
theorem stream_final_tag_counterexample :
    stream_speech_to_text 1280 [1, 2, 3] [RSlot.msg ⟨0, "", some ["你"], some 1⟩]
      = ([⟨[1, 2, 3], 2⟩], [StreamUpdate.text "你" true])
    ∧ (⟨0, "", some ["你"], some 1⟩ : AsrStreamResp).status ≠ some 2 := by
  decide

/-- C5: the one-shot ASR/TTS operations terminate on a non-zero response code
and surface the remote message (as a raised exception or a success=False
envelope) without internal retry, but `stream_speech_to_text` never reads the
response code: its output is unchanged under arbitrary rewriting of every code
field, so a server error is silently ignored there. -/
theorem error_propagation_amended (b1 : AsrMsg) (rest1 : List AsrMsg)
    (h1 : b1.code ≠ 0) (b2 : RecogMsg) (rest2 : List RecogMsg) (h2 : b2.code ≠ 0)
    (b3 : TtsMsg) (rest3 : List TtsMsg) (h3 : b3.code ≠ 0)
    (g : Nat → Nat) (cs : Nat) (buffer : List Nat) (slots : List RSlot) :
    speech_to_text (b1 :: rest1) = Except.error ("语音识别错误: " ++ b1.message)
    ∧ recognize_speech (b2 :: rest2) = RecogResult.failure b2.message
    ∧ text_to_speech (b3 :: rest3)
        = Except.error ("语音合成失败: TTS错误: " ++ b3.message)
    ∧ stream_speech_to_text cs buffer (slots.map (mapSlotCode g))
        = stream_speech_to_text cs buffer slots := by
  refine ⟨?_, ?_, ?_, streamGo_code_blind g (chunkFrames cs buffer) slots⟩
  · rw [speech_to_text, sttGo]
    rw [if_pos h1]
  · rw [recognize_speech, recognizeGo]
    dsimp only
    rw [if_pos h2]
  · rw [text_to_speech, ttsGo]
    rw [if_neg h3]

/-- C5 witness: the error-propagation property at the server reply
`code = 10000, message = "invalid parameter"`. -/
theorem error_propagation_amended_witness :
    speech_to_text [(⟨10000, "invalid parameter", none, none⟩ : AsrMsg)]
      = Except.error ("语音识别错误: " ++ "invalid parameter")
    ∧ recognize_speech [(⟨10000, "invalid parameter", none, none⟩ : RecogMsg)]
      = RecogResult.failure "invalid parameter"
    ∧ text_to_speech [(⟨10000, "invalid parameter", none⟩ : TtsMsg)]
      = Except.error ("语音合成失败: TTS错误: " ++ "invalid parameter")
    ∧ stream_speech_to_text 1 [10, 20]
        ([RSlot.msg ⟨10000, "invalid parameter", none, none⟩].map (mapSlotCode id))
      = stream_speech_to_text 1 [10, 20]
        [RSlot.msg ⟨10000, "invalid parameter", none, none⟩] :=
  error_propagation_amended ⟨10000, "invalid parameter", none, none⟩ [] (by decide)
    ⟨10000, "invalid parameter", none, none⟩ [] (by decide)
    ⟨10000, "invalid parameter", none⟩ [] (by decide)
    id 1 [10, 20] [RSlot.msg ⟨10000, "invalid parameter", none, none⟩]

/-- C5 counterexample: in the streaming path a first reply with
`code = 10000, message = "invalid parameter"` produces no error update and does
not stop the session — both frames are still sent and the update list is empty,
so the error is swallowed. -/
theorem stream_error_swallowed_counterexample :
    stream_speech_to_text 1 [10, 20]
        [RSlot.msg ⟨10000, "invalid parameter", none, none⟩, RSlot.timeout]
      = ([⟨[10], 0⟩, ⟨[20], 2⟩], []) := by
  decide

/-- C6: wrapping raw PCM with channels = 1, bitsPerSample = 16,
sampleRate = 16000 is the pure function `wavBytes`, and parsing its output
with a standard WAV reader recovers exactly those parameters and the original
payload bytes (for any payload whose declared sizes fit the 32-bit header
fields). -/
theorem wav_roundtrip (pcm : List Nat) (h : pcm.length + 36 < 4294967296) :
    convert_to_wav false 16000 pcm = wavBytes 16000 pcm
    ∧ parseWav (convert_to_wav false 16000 pcm) = some (1, 16, 16000, pcm) := by
  refine ⟨rfl, ?_⟩
  rw [show convert_to_wav false 16000 pcm = wavBytes 16000 pcm from rfl]
  exact parseWav_wavBytes 16000 pcm rfl h

/-- C6 witness: the WAV round trip at the concrete payload `[1, 2, 3]`. -/
theorem wav_roundtrip_witness :
    ([1, 2, 3] : List Nat).length + 36 < 4294967296
    ∧ (convert_to_wav false 16000 [1, 2, 3] = wavBytes 16000 [1, 2, 3]
      ∧ parseWav (convert_to_wav false 16000 [1, 2, 3])
          = some (1, 16, 16000, [1, 2, 3])) :=
  ⟨by decide, wav_roundtrip [1, 2, 3] (by decide)⟩

/-- C7: a 3000-byte buffer chunked at 1280 produces exactly the three frames
START, CONTINUE, END whose payloads concatenate back to the buffer; against the
scripted replies (two partials, then a final with status 2) the generator
yields one update per fragment, the last tagged final but carrying only the
third fragment's text — the concatenation of the three fragments appears only
across all yielded texts, never in the final-tagged update itself. -/
theorem stream_session_amended (buf : List Nat) (h : buf.length = 3000) :
    (chunkFrames 1280 buf).map AudioFrame.status = [0, 1, 2]
    ∧ ((chunkFrames 1280 buf).map AudioFrame.payload).flatten = buf
    ∧ (stream_speech_to_text 1280 buf c7_slots).2
        = [StreamUpdate.text "你好" false, StreamUpdate.text "世" false,
           StreamUpdate.text "界" true]
    ∧ String.join ["你好", "世", "界"] = "你好世界" :=
  ⟨(c7_session buf h).1,
   chunkGo_join 1280 (by norm_num) buf.length true buf le_rfl,
   (c7_session buf h).2, by decide⟩

/-- C7 witness: the session scenario at the concrete 3000-byte buffer of
zeros. -/
theorem stream_session_amended_witness :
    (List.replicate 3000 (0 : Nat)).length = 3000
    ∧ ((chunkFrames 1280 (List.replicate 3000 0)).map AudioFrame.status = [0, 1, 2]
      ∧ ((chunkFrames 1280 (List.replicate 3000 0)).map AudioFrame.payload).flatten
          = List.replicate 3000 0
      ∧ (stream_speech_to_text 1280 (List.replicate 3000 0) c7_slots).2
          = [StreamUpdate.text "你好" false, StreamUpdate.text "世" false,
             StreamUpdate.text "界" true]
      ∧ String.join ["你好", "世", "界"] = "你好世界") :=
  ⟨List.length_replicate 3000 0,
   stream_session_amended (List.replicate 3000 0) (List.length_replicate 3000 0)⟩

/-- C7 counterexample: in that session the final-tagged update carries only
"界", not the concatenation "你好世界" of all three fragments, refuting
"the caller-visible final text equals the concatenation of all three
fragments' text". -/
theorem stream_session_counterexample :
    (stream_speech_to_text 1280 (List.replicate 3000 0) c7_slots).2
      = [StreamUpdate.text "你好" false, StreamUpdate.text "世" false,
         StreamUpdate.text "界" true]
    ∧ ("界" : String) ≠ "你好世界" :=
  ⟨(c7_session (List.replicate 3000 0) (List.length_replicate 3000 0)).2, by decide⟩

/-- C8: when no receive attempt raises (slots are only timeouts or messages)
and at least one receive attempt is an idle timeout, the session does not fail:
every frame is still sent and no error update is ever yielded. -/
theorem idle_timeout_not_fatal (cs : Nat) (buffer : List Nat) (slots : List RSlot)
    (k : Nat) (hk : slots.get? k = some RSlot.timeout)
    (hok : ∀ s ∈ slots, ∀ e, s ≠ RSlot.failed e) :
    (stream_speech_to_text cs buffer slots).1 = chunkFrames cs buffer
    ∧ ∀ u ∈ (stream_speech_to_text cs buffer slots).2, ∀ e,
        u ≠ StreamUpdate.error e :=
  streamGo_no_failed (chunkFrames cs buffer) slots hok

/-- C8 witness: a two-chunk session whose single receive attempt times out. -/
theorem idle_timeout_not_fatal_witness :
    (stream_speech_to_text 1 [5, 6] [RSlot.timeout]).1 = chunkFrames 1 [5, 6]
    ∧ ∀ u ∈ (stream_speech_to_text 1 [5, 6] [RSlot.timeout]).2, ∀ e,
        u ≠ StreamUpdate.error e :=
  idle_timeout_not_fatal 1 [5, 6] [RSlot.timeout] 0 (by decide) (by simp)

/-- C9: if the wave-module call raises, `_convert_to_wav` returns the raw PCM
bytes unchanged instead of propagating the error, and `synthesize_speech` still
reports `success = True` with format "wav" although the returned audio parses
as no WAV container. -/
theorem convert_to_wav_exception_fallback (raw : List Nat) (sr : Nat)
    (h : parseWav raw = none) :
    convert_to_wav true sr raw = raw
    ∧ (synthesize_speech_result true sr raw).success = true
    ∧ (synthesize_speech_result true sr raw).format = "wav"
    ∧ (synthesize_speech_result true sr raw).audio = raw
    ∧ parseWav (synthesize_speech_result true sr raw).audio = none :=
  ⟨rfl, rfl, rfl, rfl, h⟩

/-- C9 witness: the fallback behaviour on the header-less raw bytes
`[1, 2, 3]`. -/
theorem convert_to_wav_exception_fallback_witness :
    convert_to_wav true 16000 [1, 2, 3] = [1, 2, 3]
    ∧ (synthesize_speech_result true 16000 [1, 2, 3]).success = true
    ∧ (synthesize_speech_result true 16000 [1, 2, 3]).format = "wav"
    ∧ (synthesize_speech_result true 16000 [1, 2, 3]).audio = [1, 2, 3]
    ∧ parseWav (synthesize_speech_result true 16000 [1, 2, 3]).audio = none :=
  convert_to_wav_exception_fallback [1, 2, 3] 16000 (by decide)

/-- C10: in the voice-service TTS receive path, a message with `code = 0` whose
`data` object lacks the `"audio"` key makes `text_to_speech` raise (the
`KeyError('audio')` re-wrapped by the outer handler) instead of skipping the
message, however many well-formed messages precede it. -/
theorem tts_missing_audio_key (pre rest : List TtsMsg) (bad : TtsMsg) (d : TtsData)
    (hpre : ∀ m ∈ pre, ttsBenign m) (hc : bad.code = 0) (hd : bad.data = some d)
    (ha : d.audio = none) :
    text_to_speech (pre ++ bad :: rest) = Except.error "语音合成失败: 'audio'" :=
  ttsGo_error_of_missing_audio pre [] bad rest d hpre hc hd ha

/-- C10 witness: one well-formed audio message followed by a success message
whose data object lacks the audio key. -/
theorem tts_missing_audio_key_witness :
    text_to_speech ([⟨0, "", some ⟨some [7]⟩⟩] ++ (⟨0, "", some ⟨none⟩⟩ : TtsMsg) :: [])
      = Except.error "语音合成失败: 'audio'" :=
  tts_missing_audio_key [⟨0, "", some ⟨some [7]⟩⟩] [] ⟨0, "", some ⟨none⟩⟩ ⟨none⟩
    (by
      intro m hm
      simp only [List.mem_singleton] at hm
      subst hm
      exact ⟨rfl, by intro d hd; cases hd; rfl⟩)
    rfl rfl rfl

end SocialWise
